import Mathlib

/-!
Verification development for the project_tracker repository
(React/TypeScript frontend under src/frontend/src, FastAPI backend described
in src/docs/architecture.md).

The definitions below are shallow embeddings of the TypeScript source:
  * search.ts            → token scanner and `parseTokens`
  * data.ts              → `pms`, `progressByStatus`, `buildProgress`, seed `categories`
  * types.ts             → the entity model (Status, Subtask, Step, Project, …)
  * StepsPanel.tsx       → `filteredSubtasks`, `filteredSteps`, `loadSteps`,
                           `handleAddStep`, `handleDeleteStep`, `handleAddSubtask`,
                           `handleDeleteSubtask`
  * App.tsx              → the initial `load` effect
  * LeftPanel.tsx        → the project-table filter pipeline

JavaScript numbers are modelled by ℚ, `Math.round` by `jsRound`
(floor (x + 1/2), which is what JS `Math.round` computes), strings by
Lean `String`, absent/undefined fields by `Option`.
-/

namespace PT

/-! ## Character classes (JS regular-expression classes used by search.ts) -/

/-- JS regex word class `\w` = ASCII letters, digits and underscore. -/
def isWordChar (c : Char) : Bool :=
  c.isAlphanum || c = '_'

/-- JS regex whitespace class `\s` (the characters occurring in realistic inputs). -/
def isSpaceChar (c : Char) : Bool :=
  c = ' ' || c = '\t' || c = '\n' || c = '\r'

/-! ## Substring matching (JS `String.prototype.includes`) -/

/-- Does `hay` start with `needle`? -/
def startsWithL : List Char → List Char → Bool
  | _, [] => true
  | [], _ :: _ => false
  | c :: cs, d :: ds => c = d && startsWithL cs ds

/-- Does `hay` contain `needle` as a contiguous substring (JS `includes`)? -/
def containsL (hay needle : List Char) : Bool :=
  startsWithL hay needle ||
    match hay with
    | [] => false
    | _ :: rest => containsL rest needle

/-- String-level wrapper for `containsL`. -/
def containsS (hay needle : String) : Bool :=
  containsL hay.toList needle.toList

/-- JS `toLowerCase` (ASCII range; the inputs compared case-insensitively by
the claims are ASCII). -/
def toLowerS (s : String) : String :=
  String.mk (s.toList.map Char.toLower)

/-! ## The token scanner of search.ts

source: `const tokenPattern = /(\w+):([^\s]+)/g;` together with the
`exec` loop and `input.replace(tokenPattern, '')`.  A match starts at the
leftmost position carrying a nonempty word-character run immediately
followed by `:` and a nonempty run of non-whitespace characters; matched
spans are removed from the residual text.  The scanner below returns the
token list (in match order) and the residual characters (in order).
The extra fuel argument makes the recursion structural; `scanTokens`
supplies fuel `l.length`, which is never exhausted because every
recursive call consumes at least one character. -/

def scanTokensAux : Nat → List Char → List (List Char × List Char) × List Char
  | 0, l => ([], l)
  | _ + 1, [] => ([], [])
  | fuel + 1, c :: rest =>
    if isWordChar c then
      let key := (c :: rest).takeWhile isWordChar
      match (c :: rest).dropWhile isWordChar with
      | ':' :: afterColon =>
        let value := afterColon.takeWhile (fun ch => !isSpaceChar ch)
        if value.isEmpty then
          let p := scanTokensAux fuel rest
          (p.1, c :: p.2)
        else
          let remainder := afterColon.dropWhile (fun ch => !isSpaceChar ch)
          let p := scanTokensAux fuel remainder
          ((key, value) :: p.1, p.2)
      | _ =>
        let p := scanTokensAux fuel rest
        (p.1, c :: p.2)
    else
      let p := scanTokensAux fuel rest
      (p.1, c :: p.2)

def scanTokens (l : List Char) : List (List Char × List Char) × List Char :=
  scanTokensAux l.length l

/-! ## Residual text post-processing: `.trim().replace(/\s{2,}/g, ' ')` -/

/-- JS `trim` on a character list: strip whitespace from both ends. -/
def jsTrimL (l : List Char) : List Char :=
  ((l.dropWhile isSpaceChar).reverse.dropWhile isSpaceChar).reverse

/-- Fuel-driven worker for `collapseWs`; every step consumes one character,
so fuel `l.length` is never exhausted. -/
def collapseWsAux : Nat → List Char → List Char
  | 0, l => l
  | _ + 1, [] => []
  | _ + 1, [c] => [c]
  | fuel + 1, c1 :: c2 :: rest =>
    if isSpaceChar c1 && isSpaceChar c2 then
      collapseWsAux fuel (' ' :: rest)
    else
      c1 :: collapseWsAux fuel (c2 :: rest)

/-- JS `replace(/\s{2,}/g, ' ')`: every run of two or more whitespace
characters becomes a single space; a lone whitespace character stays as it is. -/
def collapseWs (l : List Char) : List Char :=
  collapseWsAux l.length l

/-! ## Decimal parsing: JS `Number` restricted to `[0-9.]+` captures -/

def natOfDigits (l : List Char) : Nat :=
  l.foldl (fun acc c => 10 * acc + (c.toNat - '0'.toNat)) 0

/-- JS `Number` on a nonempty string drawn from `[0-9.]`: `none` models `NaN`
(two or more dots, or a lone dot). -/
def parseDecimal (l : List Char) : Option ℚ :=
  if 1 < l.count '.' then none
  else if l = ['.'] then none
  else
    let intPart := l.takeWhile (fun c => c ≠ '.')
    let fracPart := (l.dropWhile (fun c => c ≠ '.')).drop 1
    some ((natOfDigits intPart : ℚ) + (natOfDigits fracPart : ℚ) / (10 : ℚ) ^ fracPart.length)

/-! ## parseTokens (search.ts) -/

/-- The three comparators of `weight:<op><number>` (search.ts line 7). -/
inductive WeightCmp where
  | gt
  | lt
  | eq
deriving DecidableEq, Repr

/-- search.ts `TokenResult`.  `hasFiles` is `false` when the flag is unset
(the source leaves the field `undefined`); `weightValue = none` covers both
an absent capture and an `NaN` result of `Number`. -/
structure TokenResult where
  text : String
  status : Option String
  owner : Option String
  assignee : Option String
  hasFiles : Bool
  weightComparator : Option WeightCmp
  weightValue : Option ℚ
deriving DecidableEq, Repr

/-- The inner regex `/([><=])([0-9.]+)/` applied to a weight token value:
first position holding a comparator character immediately followed by a
nonempty `[0-9.]` run; returns the comparator and that (greedy) run. -/
def weightMatch : List Char → Option (WeightCmp × List Char)
  | [] => none
  | c :: rest =>
    let digits := rest.takeWhile (fun d => d.isDigit || d = '.')
    if c = '>' && !digits.isEmpty then some (WeightCmp.gt, digits)
    else if c = '<' && !digits.isEmpty then some (WeightCmp.lt, digits)
    else if c = '=' && !digits.isEmpty then some (WeightCmp.eq, digits)
    else weightMatch rest

/-- JS object assignment `tokens[key] = value`: the last occurrence of a key wins. -/
def lastValue (ps : List (String × String)) (k : String) : Option String :=
  ps.foldl (fun acc p => if p.1 = k then some p.2 else acc) none

/-- search.ts `parseTokens` (lines 13–48).  Keys are lowercased; recognised
keys populate the structured fields; all `key:value` matches are stripped
from the text, which is then trimmed and internally collapsed. -/
def parseTokens (input : String) : TokenResult :=
  let scanned := scanTokens input.toList
  let tokens := scanned.1.map (fun p => (toLowerS (String.mk p.1), String.mk p.2))
  let w : Option WeightCmp × Option ℚ :=
    match lastValue tokens "weight" with
    | some v =>
      match weightMatch v.toList with
      | some cd => (some cd.1, parseDecimal cd.2)
      | none => (none, none)
    | none => (none, none)
  { text := String.mk (collapseWs (jsTrimL scanned.2))
    status := lastValue tokens "status"
    owner := lastValue tokens "owner"
    assignee := lastValue tokens "assignee"
    hasFiles := lastValue tokens "has" = some "files"
    weightComparator := w.1
    weightValue := w.2 }

/-! ## Entity model (types.ts) -/

/-- types.ts `Status`. -/
inductive Status where
  | todo
  | in_progress
  | blocked
  | done
deriving DecidableEq, Repr

/-- The literal string value a `Status` holds in the TypeScript union type. -/
def statusStr : Status → String
  | .todo => "todo"
  | .in_progress => "in_progress"
  | .blocked => "blocked"
  | .done => "done"

/-- types.ts `ProjectStatus`. -/
inductive ProjectStatus where
  | active
  | archived
deriving DecidableEq, Repr

/-- The literal string value a `ProjectStatus` holds in the TypeScript union type. -/
def projectStatusStr : ProjectStatus → String
  | .active => "active"
  | .archived => "archived"

/-- types.ts `PM`. -/
structure PM where
  id : ℤ
  name : String
deriving DecidableEq, Repr

/-- types.ts `Attachment`. -/
structure Attachment where
  id : ℤ
  path : String
  added_at : Option String
  project_id : Option ℤ
  step_id : Option ℤ
deriving DecidableEq, Repr

/-- types.ts `Subtask` (note: `weight` is required on subtasks). -/
structure Subtask where
  id : ℤ
  name : String
  status : Status
  assignee_id : Option ℤ
  target_date : Option String
  completed_date : Option String
  weight : ℚ
  order_index : ℤ
  comment : Option String
deriving DecidableEq, Repr

/-- types.ts `Step` (note: `weight` is optional on steps). -/
structure Step where
  id : ℤ
  name : String
  description : Option String
  status : Status
  assignee_id : Option ℤ
  start_date : Option String
  target_date : Option String
  completed_date : Option String
  weight : Option ℚ
  order_index : ℤ
  comments : Option String
  subtasks : List Subtask
  progress_percent : ℚ
deriving DecidableEq, Repr

/-- types.ts `Project`. -/
structure Project where
  id : ℤ
  name : String
  code : Option String
  status : ProjectStatus
  category_id : Option ℤ
  owner_id : Option ℤ
  start_date : Option String
  target_date : Option String
  description : Option String
  moq : Option ℚ
  base_price : Option ℚ
  retail_price : Option ℚ
  progress_percent : ℚ
  cover_image : Option String
  media_path : Option String
  steps : List Step
  inprogress_coeff : Option ℚ
  attachments : Option (List Attachment)
deriving DecidableEq, Repr

/-- types.ts `Category`. -/
structure Category where
  id : ℤ
  name : String
  projects : List Project
deriving DecidableEq, Repr

/-! ## Rounding

JS `Math.round x` equals `⌊x + 1/2⌋` (round half up), which is also the
rounding rule named by the spec. -/

/-- JS `Math.round` / spec round-half-up, as an integer. -/
def jsRound (q : ℚ) : ℤ :=
  ⌊q + 1 / 2⌋

/-- JS `Math.round` as a JS number (ℚ), used where the source stores the
result in a numeric field. -/
def jsRoundQ (q : ℚ) : ℚ :=
  (jsRound q : ℚ)

/-! ## Seed data (data.ts) -/

/-- data.ts `pms`. -/
def pms : List PM :=
  [⟨1, "Ирина Петрова"⟩, ⟨2, "Alex Chen"⟩, ⟨3, "Мария Смирнова"⟩]

/-- data.ts `progressByStatus` (lines 9–14): the fixed status-to-credit table
with a hard-wired 0.5 for `in_progress`. -/
def progressByStatus : Status → ℚ
  | .todo => 0
  | .blocked => 0
  | .in_progress => 1 / 2
  | .done => 1

/-- data.ts `buildProgress` (lines 16–20).  The source gives
`inProgressCoeff` the default value 0.5; call sites that omit the argument
pass `1/2` explicitly here. -/
def buildProgress (status : Status) (inProgressCoeff : ℚ) : ℚ :=
  if status = .done then 1
  else if status = .in_progress then inProgressCoeff
  else 0

/-- data.ts subtask 2001. -/
def subtask2001 : Subtask :=
  { id := 2001, name := "Рендеры лицевой панели", status := .done, assignee_id := some 2
    target_date := some "2024-02-10", completed_date := none, weight := 1, order_index := 1
    comment := some "" }

/-- data.ts subtask 2002. -/
def subtask2002 : Subtask :=
  { id := 2002, name := "Тест материалов ручек", status := .in_progress, assignee_id := some 3
    target_date := some "2024-03-01", completed_date := none, weight := 1, order_index := 2
    comment := some "Проверить устойчивость к царапинам." }

/-- data.ts step 1001 (lines 45–82).  Its `progress_percent` is the source
expression `Math.round(((progressByStatus['done'] * 1 + progressByStatus['in_progress'] * 1) / 2) * 100)`:
it draws the in-progress credit from the fixed `progressByStatus` table
(0.5), not from the owning project's `inprogress_coeff` (0.45). -/
def step1001 : Step :=
  { id := 1001, name := "Дизайн корпуса"
    description := some "Форм-фактор, материалы, цветовые решения."
    status := .in_progress, assignee_id := some 2, start_date := some "2024-02-01"
    target_date := some "2024-03-15", completed_date := none, weight := some 1
    order_index := 1, comments := some "Уточнить доступность поставщика стекла."
    subtasks := [subtask2001, subtask2002]
    progress_percent :=
      jsRoundQ ((progressByStatus .done * 1 + progressByStatus .in_progress * 1) / 2 * 100) }

/-- data.ts step 1002 (lines 83–96); `buildProgress('todo', 0.45) * 100`. -/
def step1002 : Step :=
  { id := 1002, name := "Сертификация", description := some "Документация и испытания."
    status := .todo, assignee_id := some 1, start_date := some "2024-04-01"
    target_date := some "2024-06-01", completed_date := none, weight := some 1
    order_index := 2, comments := some "Готовим список лабораторий."
    subtasks := []
    progress_percent := buildProgress .todo (45 / 100) * 100 }

/-- data.ts project 101 (lines 27–98): `inprogress_coeff: 0.45`,
`progress_percent: 42` stored as a plain literal. -/
def project101 : Project :=
  { id := 101, name := "Духовой шкаф H-series", code := some "H-OVEN-01", status := .active
    category_id := none, owner_id := some 1, start_date := some "2024-01-15"
    target_date := some "2024-08-30"
    description := some "Новая линейка духовок с паровым режимом."
    moq := some 500, base_price := some 350, retail_price := some 499
    progress_percent := 42, cover_image := some "", media_path := some "workspace/media/ovens"
    steps := [step1001, step1002], inprogress_coeff := some (45 / 100)
    attachments := some [] }

/-- data.ts subtask 2101. -/
def subtask2101 : Subtask :=
  { id := 2101, name := "Нагрузочные тесты", status := .blocked, assignee_id := some 2
    target_date := some "2023-09-01", completed_date := none, weight := 1, order_index := 1
    comment := some "Нет стенда пока." }

/-- data.ts subtask 2102. -/
def subtask2102 : Subtask :=
  { id := 2102, name := "Шумовые испытания", status := .in_progress, assignee_id := some 2
    target_date := some "2023-08-20", completed_date := none, weight := 1, order_index := 2
    comment := some "Нужен обновлённый микрофон." }

/-- data.ts step 1101 (lines 121–133): no `weight` field, empty `subtasks`,
literal `progress_percent: 100`. -/
def step1101 : Step :=
  { id := 1101, name := "Локализация UI", description := none, status := .done
    assignee_id := some 1, start_date := some "2023-06-01", target_date := some "2023-07-01"
    completed_date := some "2023-06-28", weight := none, order_index := 1
    comments := some "Все регионы покрты.", subtasks := [], progress_percent := 100 }

/-- data.ts step 1102 (lines 134–166);
`Math.round(((buildProgress('blocked') + buildProgress('in_progress', 0.6)) / 2) * 100)`. -/
def step1102 : Step :=
  { id := 1102, name := "Тестирование", description := none, status := .in_progress
    assignee_id := some 2, start_date := some "2023-08-01", target_date := some "2023-09-15"
    completed_date := none, weight := none, order_index := 2
    comments := some "Остались климатические стенды."
    subtasks := [subtask2101, subtask2102]
    progress_percent :=
      jsRoundQ ((buildProgress .blocked (1 / 2) + buildProgress .in_progress (6 / 10)) / 2 * 100) }

/-- data.ts project 201 (lines 105–168). -/
def project201 : Project :=
  { id := 201, name := "Серия кондиционеров Breeze", code := some "BR-COOL-02"
    status := .archived, category_id := none, owner_id := some 3
    start_date := some "2023-05-01", target_date := some "2024-02-15"
    description := some "Обновление линейки с улучшенной энергоэффективностью."
    moq := some 800, base_price := some 420, retail_price := some 599
    progress_percent := 78, cover_image := none, media_path := none
    steps := [step1101, step1102], inprogress_coeff := some (6 / 10)
    attachments := some [] }

/-- data.ts `categories`. -/
def categories : List Category :=
  [⟨1, "Техника для кухни", [project101]⟩,
   ⟨2, "Климатическая техника", [project201]⟩]

/-! ## The Progress Aggregator

Modelled from the spec: the aggregation itself runs in the FastAPI backend
("CRUD for steps and subtasks with progress calculation (project and step
level) per status/weight rules", docs/architecture.md), whose code is not
under src/; the definitions below follow spec section 4.2 word for word.
An item is a pair of an optional weight and a status. -/

/-- Modelled from the spec: step 1 of section 4.2, the fractional credit of
one item (`Done → 1`, `InProgress → coeff`, `Todo → 0`, `Blocked → 0`). -/
def specCredit (coeff : ℚ) : Status → ℚ
  | .done => 1
  | .in_progress => coeff
  | .todo => 0
  | .blocked => 0

/-- Modelled from the spec: step 2 of section 4.2, the effective weight of an
item ("default 1 if absent/zero"). -/
def specWeight : Option ℚ → ℚ
  | none => 1
  | some w => if w = 0 then 1 else w

/-- Modelled from the spec: steps 3 and 4 of section 4.2 — the 0–100 integer
progress of an item collection, `round(100 * Σ(wᵢ·cᵢ) / Σ(wᵢ))` with
round-half-up, and 0 for an empty collection. -/
def specProgress (coeff : ℚ) (items : List (Option ℚ × Status)) : ℤ :=
  if items = [] then 0
  else
    jsRound (100 *
      (items.map (fun it => specWeight it.1 * specCredit coeff it.2)).sum /
      (items.map (fun it => specWeight it.1)).sum)

/-- The item collection of a Step: its subtasks (weights are required there). -/
def stepItems (s : Step) : List (Option ℚ × Status) :=
  s.subtasks.map (fun st => (some st.weight, st.status))

/-- The item collection of a Project: its steps (weights optional). -/
def projectItems (p : Project) : List (Option ℚ × Status) :=
  p.steps.map (fun s => (s.weight, s.status))

/-- The coefficient the spec prescribes for a project: its
`in_progress_coeff`, defaulting to 0.5 when absent. -/
def projectCoeff (p : Project) : ℚ :=
  p.inprogress_coeff.getD (1 / 2)

/-! ## StepsPanel.tsx: the subtask and step filters -/

/-- JS `trim` at the string level. -/
def trimS (s : String) : String :=
  String.mk (jsTrimL s.toList)

/-- The predicate body of `filteredSubtasks` (StepsPanel.tsx lines 216–236):
plain-text match on the name, token status match, the status dropdown
filter (`none` models the `'all'` choice), and the weight comparison.
JS truthiness: an empty `text` and an absent or zero or NaN `weightValue`
make their conjuncts vacuously true. -/
def subtaskMatches (parsed : TokenResult) (subtaskStatusFilter : Option Status)
    (st : Subtask) : Bool :=
  let matchesText :=
    if parsed.text.data.isEmpty then true
    else containsS (toLowerS st.name) (toLowerS parsed.text)
  let matchesStatus :=
    match parsed.status with
    | some s => toLowerS (statusStr st.status) == toLowerS s
    | none => true
  let matchesStatusFilter :=
    match subtaskStatusFilter with
    | none => true
    | some f => st.status == f
  let matchesWeight :=
    match parsed.weightValue with
    | none => true
    | some v =>
      if v = 0 then true
      else
        match parsed.weightComparator with
        | some WeightCmp.gt => decide (v < st.weight)
        | some WeightCmp.lt => decide (st.weight < v)
        | _ => decide (st.weight = v)
  matchesText && matchesStatus && matchesStatusFilter && matchesWeight

/-- StepsPanel.tsx `filteredSubtasks` (lines 216–236). -/
def filteredSubtasks (subtaskSearch : String) (subtaskStatusFilter : Option Status)
    (subtasks : List Subtask) : List Subtask :=
  subtasks.filter (subtaskMatches (parseTokens subtaskSearch) subtaskStatusFilter)

/-- The predicate body of `filteredSteps` (StepsPanel.tsx lines 240–257).
The haystack is `name + ' ' + (description ?? '')` lowercased; the weight
conjunct additionally requires `step.weight !== undefined`, so a step
without a weight is never excluded by it. -/
def stepMatches (parsed : TokenResult) (step : Step) : Bool :=
  let haystack := toLowerS (step.name ++ " " ++ step.description.getD "")
  let matchesText :=
    if parsed.text.data.isEmpty then true
    else containsS haystack (toLowerS parsed.text)
  let matchesStatus :=
    match parsed.status with
    | some s => toLowerS (statusStr step.status) == toLowerS s
    | none => true
  let matchesWeight :=
    match parsed.weightValue, step.weight with
    | some v, some w =>
      if v = 0 then true
      else
        match parsed.weightComparator with
        | some WeightCmp.gt => decide (v < w)
        | some WeightCmp.lt => decide (w < v)
        | _ => decide (w = v)
    | _, _ => true
  matchesText && matchesStatus && matchesWeight

/-- StepsPanel.tsx `filteredSteps` (lines 240–257). -/
def filteredSteps (stepSearch : String) (steps : List Step) : List Step :=
  steps.filter (stepMatches (parseTokens stepSearch))

/-! ## StepsPanel.tsx: the Steps read (`loadSteps`, lines 86–119)

The slice state is the pair of React state cells the read writes
(`steps`, `stepError`); a read outcome is `some fetched` for a resolved
fetch and `none` for a rejected one.  `project.steps` is the local/seed
snapshot used as fallback. -/

structure StepsSliceState where
  steps : List Step
  stepError : Option String
deriving DecidableEq, Repr

def stepsEmptyMsg : String := "Нет данных от API, показаны локальные шаги."

def stepsFailMsg : String := "API шагов недоступно, показаны локальные данные."

/-- StepsPanel.tsx `loadSteps` (lines 86–119), as a transition on the slice
state: a non-empty success installs the fetched data and clears the
advisory; an empty success and a failure both install the local snapshot
and raise an advisory. -/
def applyLoadSteps (projectSteps : List Step) (result : Option (List Step))
    (st : StepsSliceState) : StepsSliceState :=
  match result with
  | some fetched =>
    { st with
      steps := if fetched.isEmpty then projectSteps else fetched
      stepError := if fetched.isEmpty then some stepsEmptyMsg else none }
  | none =>
    { st with
      steps := projectSteps
      stepError := some stepsFailMsg }

/-! ## App.tsx: the initial load (lines 62–95) -/

/-- App.tsx imports the seed as `categories as seedCategories`. -/
def seedCategories : List Category := categories

/-- App.tsx imports the seed as `pms as seedPMs`. -/
def seedPMs : List PM := pms

/-- App.tsx `seedProjects` (lines 42–45): the seed projects flattened out of
the seed categories, each stamped with its `category_id`. -/
def seedProjects : List Project :=
  seedCategories.flatMap (fun c => c.projects.map (fun p => { p with category_id := some c.id }))

/-- The App-level state cells written by the initial `load` effect. -/
structure AppState where
  workspacePath : String
  pmDirectory : List PM
  appCategories : List Category
  appProjects : List Project
  error : Option String
  info : Option String
deriving DecidableEq, Repr

def appLoadFailMsg : String := "API недоступно, показаны мок-данные."

/-- App.tsx `load` (lines 62–95) as a transition on the App state: on
success each empty slice silently falls back to seed data and the error and
info advisories are cleared; on failure every slice falls back to seed data
and the error advisory is raised. -/
def applyAppLoad
    (result : Option (String × List PM × List Category × List Project))
    (st : AppState) : AppState :=
  match result with
  | some (wsPath, fetchedPMs, fetchedCategories, fetchedProjects) =>
    { st with
      workspacePath := wsPath
      pmDirectory := if fetchedPMs.isEmpty then seedPMs else fetchedPMs
      appCategories := if fetchedCategories.isEmpty then seedCategories else fetchedCategories
      appProjects := if fetchedProjects.isEmpty then seedProjects else fetchedProjects
      error := none
      info := none }
  | none =>
    { st with
      error := some appLoadFailMsg
      pmDirectory := seedPMs
      appCategories := seedCategories
      appProjects := seedProjects }

/-- The initial values of the App state cells (App.tsx `useState` initialisers). -/
def initialAppState : AppState :=
  { workspacePath := ""
    pmDirectory := seedPMs
    appCategories := seedCategories
    appProjects := seedProjects
    error := none
    info := none }

/-! ## StepsPanel.tsx: optimistic mutations -/

/-- The tone of the action advisory banner. -/
inductive Tone where
  | info
  | warning
deriving DecidableEq, Repr

/-- The StepsPanel state cells touched by the step mutations. -/
structure PanelState where
  steps : List Step
  stepName : String
  selectedStepId : Option ℤ
  actionMessage : Option String
  actionTone : Tone
deriving DecidableEq, Repr

/-- The optimistic Step of `handleAddStep` (StepsPanel.tsx lines 262–276):
temporary id, trimmed name, todo status, weight 1, `order_index` one past
the current list length, zero progress. -/
def mkOptimisticStep (tempId : ℤ) (stepName : String) (stepsLen : ℕ) : Step :=
  { id := tempId, name := trimS stepName, status := .todo, assignee_id := none
    description := some "", start_date := none, target_date := none, completed_date := none
    weight := some 1, order_index := (stepsLen : ℤ) + 1, comments := some ""
    subtasks := [], progress_percent := 0 }

/-- The synchronous part of `handleAddStep` (lines 259–279): guard on the
trimmed name, append the optimistic step, clear the input, select the
temporary id.  `tempId` stands for the source's `Date.now() * -1`. -/
def handleAddStepLocal (tempId : ℤ) (st : PanelState) : PanelState :=
  if (trimS st.stepName).data.isEmpty then st
  else
    { st with
      steps := st.steps ++ [mkOptimisticStep tempId st.stepName st.steps.length]
      stepName := ""
      selectedStepId := some tempId }

/-- The success continuation of `handleAddStep` (lines 291–297): the entity
whose id is the temporary id is replaced by the created one (the source's
`{ ...created, subtasks: created.subtasks ?? [] }` is `created` itself here
because `subtasks` is a total field of the model), the created id is
selected, and an info advisory is shown. -/
def addStepSuccess (tempId : ℤ) (created : Step) (st : PanelState) : PanelState :=
  { st with
    steps := st.steps.map (fun s => if s.id = tempId then created else s)
    selectedStepId := some created.id
    actionTone := .info
    actionMessage := some "Шаг сохранён через API." }

/-- The failure continuation of `handleAddStep` (lines 298–301): the steps
are left untouched and a warning advisory is raised. -/
def addStepFailure (st : PanelState) : PanelState :=
  { st with
    actionTone := .warning
    actionMessage := some "API шагов недоступно, шаг добавлен локально." }

/-- The steps update of `handleDeleteStep` (StepsPanel.tsx lines 329–332):
drop the selected step, then renumber `order_index` to `idx + 1`. -/
def deleteStepLocal (selectedStepId : ℤ) (steps : List Step) : List Step :=
  (steps.filter (fun s => s.id != selectedStepId)).mapIdx
    (fun idx s => { s with order_index := (idx : ℤ) + 1 })

/-- The subtasks update of `handleDeleteSubtask` (StepsPanel.tsx line 408):
drop the selected subtask — no renumbering takes place. -/
def deleteSubtaskLocal (selectedId : ℤ) (subtasks : List Subtask) : List Subtask :=
  subtasks.filter (fun st => st.id != selectedId)

/-- StepsPanel.tsx `handleAddSubtask`, the id fallback of lines 361–365
(`prev.reduce((acc, st) => Math.max(acc, st.id), 0)`). -/
def maxSubtaskId (prev : List Subtask) : ℤ :=
  prev.foldl (fun acc st => max acc st.id) 0

/-- The optimistic subtasks update of `handleAddSubtask` (lines 360–376):
append a todo subtask with the temporary id (`tempId || maxId + 1`), weight
1 and `order_index` one past the current length of the updater's `prev`
argument. -/
def addSubtaskOptimistic (tempId : ℤ) (title : String) (prev : List Subtask) : List Subtask :=
  prev ++
    [{ id := if tempId = 0 then maxSubtaskId prev + 1 else tempId
       name := title, status := .todo, assignee_id := none
       target_date := none, completed_date := none, weight := 1
       order_index := (prev.length : ℤ) + 1, comment := some "" }]

/-! ## LeftPanel.tsx: the project table (lines 140–170) -/

/-- The filter predicate of the project table (LeftPanel.tsx lines 144–153):
a haystack of name, code and status, plus an exact status token match.
It consults no other parsed field. -/
def projectFilterPred (parsed : TokenResult) (p : Project) : Bool :=
  let text := toLowerS (p.name ++ " " ++ p.code.getD "" ++ " " ++ projectStatusStr p.status)
  let matchesText :=
    if parsed.text.data.isEmpty then true
    else containsS text (toLowerS parsed.text)
  let matchesStatus :=
    match parsed.status with
    | some s => toLowerS (projectStatusStr p.status) == toLowerS s
    | none => true
  matchesText && matchesStatus

/-- The project rows LeftPanel renders (lines 141–170): categories
restricted to the selected one (`none` models no selection), flattened to
`(categoryId, project)` pairs, filtered by `projectFilterPred`; each row
displays the project's stored `progress_percent` field. -/
def leftPanelVisibleProjects (parsed : TokenResult) (selectedCategoryId : Option ℤ)
    (cats : List Category) : List (ℤ × Project) :=
  ((cats.filter (fun c =>
      match selectedCategoryId with
      | none => true
      | some cid => c.id == cid)).flatMap
    (fun c => c.projects.map (fun p => (c.id, p)))).filter
      (fun cp => projectFilterPred parsed cp.2)

/-! ## Helper lemmas -/

lemma jsRound_eq {q : ℚ} {z : ℤ} (h1 : (z : ℚ) ≤ q + 1 / 2) (h2 : q + 1 / 2 < z + 1) :
    jsRound q = z := by
  rw [jsRound, Int.floor_eq_iff]
  exact ⟨h1, by exact_mod_cast h2⟩

lemma jsRoundQ_eq {q : ℚ} {z : ℤ} (h1 : (z : ℚ) ≤ q + 1 / 2) (h2 : q + 1 / 2 < z + 1) :
    jsRoundQ q = (z : ℚ) := by
  rw [jsRoundQ, jsRound_eq h1 h2]

lemma jsRound_nonneg {q : ℚ} (h : 0 ≤ q) : 0 ≤ jsRound q := by
  rw [jsRound]
  exact Int.le_floor.mpr (by push_cast; linarith)

lemma jsRound_le_100 {q : ℚ} (h : q ≤ 100) : jsRound q ≤ 100 := by
  rw [jsRound]
  have : ⌊q + 1 / 2⌋ < 101 := Int.floor_lt.mpr (by push_cast; linarith)
  omega

lemma step1001_progress : step1001.progress_percent = 75 := by
  show jsRoundQ _ = 75
  rw [jsRoundQ_eq (z := 75) (by norm_num [progressByStatus]) (by norm_num [progressByStatus])]
  norm_num

lemma specProgress_step1001 :
    specProgress (projectCoeff project101) (stepItems step1001) = 73 := by
  have hc : projectCoeff project101 = 45 / 100 := rfl
  have hi : stepItems step1001 = [(some 1, .done), (some 1, .in_progress)] := rfl
  rw [hc, hi, specProgress]
  simp only [specWeight, specCredit, List.map_cons, List.map_nil, List.sum_cons, List.sum_nil]
  rw [if_neg (by simp)]
  exact jsRound_eq (by norm_num) (by norm_num)

lemma specProgress_project101 :
    specProgress (projectCoeff project101) (projectItems project101) = 23 := by
  have hc : projectCoeff project101 = 45 / 100 := rfl
  have hi : projectItems project101 = [(some 1, .in_progress), (some 1, .todo)] := rfl
  rw [hc, hi, specProgress]
  simp only [specWeight, specCredit, List.map_cons, List.map_nil, List.sum_cons, List.sum_nil]
  rw [if_neg (by simp)]
  exact jsRound_eq (by norm_num) (by norm_num)

/-! ## The claims -/

/-- Claim C7 (code_bug evaluation): `buildProgress` gives `Done` credit 1 and
`Todo`/`Blocked` credit 0 for every coefficient, and only `InProgress`
depends on the coefficient; but the seed computation of step 1001's
progress uses the fixed `progressByStatus` table (in-progress credit 0.5)
although the owning project 101 declares `inprogress_coeff = 0.45`: the
stored value is 75, while the spec aggregation with the owning project's
coefficient yields 73. -/
theorem inprogress_coeff_code_bug :
    (∀ c : ℚ, buildProgress .done c = 1 ∧ buildProgress .todo c = 0 ∧
      buildProgress .blocked c = 0 ∧ buildProgress .in_progress c = c)
    ∧ project101.inprogress_coeff = some (45 / 100)
    ∧ step1001.progress_percent = 75
    ∧ specProgress (projectCoeff project101) (stepItems step1001) = 73
    ∧ step1001.progress_percent
        ≠ (specProgress (projectCoeff project101) (stepItems step1001) : ℚ) := by
  refine ⟨fun c => ⟨rfl, rfl, rfl, rfl⟩, rfl, step1001_progress, specProgress_step1001, ?_⟩
  rw [step1001_progress, specProgress_step1001]
  norm_num

/-- Claim C6: two sequential optimistic subtask creates over a list of
length n assign `order_index` n+1 and n+2 — the second updater observes the
first optimistic append, so there is no collision. -/
theorem sequential_optimistic_order_index (prev : List Subtask)
    (t1 t2 : String) (id1 id2 : ℤ) :
    ((addSubtaskOptimistic id2 t2 (addSubtaskOptimistic id1 t1 prev)).map
        (fun st => st.order_index))
      = (prev.map (fun st => st.order_index))
        ++ [(prev.length : ℤ) + 1, (prev.length : ℤ) + 2] := by
  simp [addSubtaskOptimistic]
  ring

/-- Claim C2 (counterexample): the initial App-level load, on a successful
response whose slices are all empty, populates every slice from the seed
snapshot but raises no advisory — `error` is cleared, contradicting the
claim that fallback is always accompanied by an advisory. -/
theorem read_fallback_counterexample :
    (applyAppLoad (some ("", [], [], [])) initialAppState).appCategories = seedCategories
    ∧ (applyAppLoad (some ("", [], [], [])) initialAppState).appProjects = seedProjects
    ∧ (applyAppLoad (some ("", [], [], [])) initialAppState).pmDirectory = seedPMs
    ∧ (applyAppLoad (some ("", [], [], [])) initialAppState).error = none :=
  ⟨rfl, rfl, rfl, rfl⟩

/-- Claim C2 (amended): for the Steps slice read, a failure and an empty
success both install the local snapshot and raise the advisory, and a
non-empty success installs the fetched data and clears the advisory; the
App-level initial load, however, falls back to seed data silently on an
empty success (no advisory), and raises its advisory only on failure. -/
theorem read_fallback_amended (projectSteps fetched : List Step) (st : StepsSliceState)
    (app : AppState) (ws : String) :
    ((applyLoadSteps projectSteps (some fetched) st).steps
        = (if fetched.isEmpty then projectSteps else fetched))
    ∧ ((applyLoadSteps projectSteps (some fetched) st).stepError
        = (if fetched.isEmpty then some stepsEmptyMsg else none))
    ∧ (applyLoadSteps projectSteps none st).steps = projectSteps
    ∧ (applyLoadSteps projectSteps none st).stepError = some stepsFailMsg
    ∧ (applyAppLoad (some (ws, [], [], [])) app).appCategories = seedCategories
    ∧ (applyAppLoad (some (ws, [], [], [])) app).error = none
    ∧ (applyAppLoad none app).appCategories = seedCategories
    ∧ (applyAppLoad none app).error = some appLoadFailMsg := by
  refine ⟨?_, ?_, rfl, rfl, rfl, rfl, rfl, rfl⟩ <;>
    · rw [applyLoadSteps]

/-- Claim C9 (counterexample): under the query `has:files` the LeftPanel
project table returns every project — including project 101, whose
attachment list is empty — because `projectFilterPred` never consults the
`hasFiles` flag; the claim would require only attachment-carrying items. -/
theorem hasfiles_counterexample :
    (parseTokens "has:files").hasFiles = true
    ∧ (parseTokens "has:files").text = ""
    ∧ ((leftPanelVisibleProjects (parseTokens "has:files") none categories).map
        (fun cp => cp.2.id)) = [101, 201]
    ∧ project101.attachments = some [] := by
  refine ⟨by decide, by decide, by decide, rfl⟩

/-- Claim C9 (amended): parsing `has:files` yields an empty plain-text term
and sets the must-have-attachment flag, but the project filter ignores the
flag: the filtered rows under `has:files` coincide with those under the
empty query, for every input. -/
theorem hasfiles_amended :
    (parseTokens "has:files").text = ""
    ∧ (parseTokens "has:files").hasFiles = true
    ∧ ∀ (selId : Option ℤ) (cats : List Category),
        leftPanelVisibleProjects (parseTokens "has:files") selId cats
          = leftPanelVisibleProjects (parseTokens "") selId cats := by
  refine ⟨by decide, by decide, fun selId cats => ?_⟩
  rw [leftPanelVisibleProjects, leftPanelVisibleProjects]
  apply List.filter_congr
  intro cp _
  have h1 : (parseTokens "has:files").text = "" := by decide
  have h2 : (parseTokens "has:files").status = none := by decide
  have h3 : (parseTokens "").text = "" := by decide
  have h4 : (parseTokens "").status = none := by decide
  simp only [projectFilterPred, h1, h2, h3, h4]

/-- Claim C8 (counterexample): the LeftPanel project rows display the stored
`progress_percent` field — 42 for seed project 101 — while the spec
aggregation over its current steps (coefficient 0.45, statuses in_progress
and todo) yields 23: the displayed value is the persisted field, not a
recomputation. -/
theorem project_progress_counterexample :
    ((leftPanelVisibleProjects (parseTokens "") none categories).map
        (fun cp => cp.2.progress_percent)) = [42, 78]
    ∧ project101.progress_percent = 42
    ∧ specProgress (projectCoeff project101) (projectItems project101) = 23
    ∧ project101.progress_percent
        ≠ (specProgress (projectCoeff project101) (projectItems project101) : ℚ) := by
  refine ⟨rfl, rfl, specProgress_project101, ?_⟩
  rw [specProgress_project101]
  show (42 : ℚ) ≠ _
  norm_num

/-- Claim C8 (amended): every project the LeftPanel table shows is one of
the input projects taken as-is, so its displayed progress is the stored
`progress_percent` field; on the seed data the rows show the stored values
42 and 78, while the aggregation rule over project 101's steps gives 23 —
the progress is not recomputed from steps. -/
theorem project_progress_amended :
    (∀ (parsed : TokenResult) (selId : Option ℤ) (cats : List Category) (cp : ℤ × Project),
        cp ∈ leftPanelVisibleProjects parsed selId cats →
          cp.2 ∈ cats.flatMap (fun c => c.projects))
    ∧ ((leftPanelVisibleProjects (parseTokens "") none categories).map
        (fun cp => cp.2.progress_percent)) = [42, 78]
    ∧ specProgress (projectCoeff project101) (projectItems project101) = 23 := by
  refine ⟨?_, rfl, specProgress_project101⟩
  intro parsed selId cats cp hcp
  have h1 := List.mem_of_mem_filter hcp
  rw [List.mem_flatMap] at h1
  rw [List.mem_flatMap]
  obtain ⟨c, hc, hcp2⟩ := h1
  refine ⟨c, List.mem_of_mem_filter hc, ?_⟩
  rw [List.mem_map] at hcp2
  obtain ⟨p, hp, he⟩ := hcp2
  subst he
  exact hp

/-- Witness for the amended claim C8 at a concrete input: the pair
`(1, project101)` is a visible row of the seed table, hence project 101 is
one of the seed projects. -/
theorem project_progress_amended_witness :
    ((1 : ℤ), project101) ∈ leftPanelVisibleProjects (parseTokens "") none categories
    ∧ project101 ∈ categories.flatMap (fun c => c.projects) := by
  have hmem : ((1 : ℤ), project101) ∈ leftPanelVisibleProjects (parseTokens "") none categories := by
    have h : leftPanelVisibleProjects (parseTokens "") none categories
        = [((1 : ℤ), project101), ((2 : ℤ), project201)] := rfl
    rw [h]
    exact List.mem_cons_self _ _
  exact ⟨hmem, project_progress_amended.1 (parseTokens "") none categories (1, project101) hmem⟩

/-! ## Order-index density (claim C4) -/

/-- A sibling set's `order_index` values are unique and form the dense
ascending 1-based sequence 1..n. -/
def denseOrderIdx (idxs : List ℤ) : Prop :=
  idxs = (List.range idxs.length).map (fun i : ℕ => (i : ℤ) + 1)

/-- Fixture subtask with order_index 1. -/
def subA : Subtask :=
  { id := 1, name := "a", status := .todo, assignee_id := none, target_date := none
    completed_date := none, weight := 1, order_index := 1, comment := none }

/-- Fixture subtask with order_index 2. -/
def subB : Subtask :=
  { id := 2, name := "b", status := .todo, assignee_id := none, target_date := none
    completed_date := none, weight := 1, order_index := 2, comment := none }

/-- Claim C4 (counterexample): deleting subtask 1 from the sibling set
{subA (order 1), subB (order 2)} leaves order_index values [2] — the
`handleDeleteSubtask` update does not renumber, so the remaining set is not
a dense 1-based sequence. -/
theorem order_index_dense_counterexample :
    ¬ denseOrderIdx ((deleteSubtaskLocal 1 [subA, subB]).map (fun st => st.order_index)) := by
  unfold denseOrderIdx
  decide

lemma ofFn_add_one (n : ℕ) :
    List.ofFn (fun i : Fin n => ((i : ℕ) : ℤ) + 1)
      = (List.range n).map (fun i : ℕ => (i : ℤ) + 1) := by
  apply List.ext_getElem
  · simp
  · intro i h1 h2
    simp

lemma mapIdx_order_eq (l : List Step) :
    ((l.mapIdx fun idx s => { s with order_index := (idx : ℤ) + 1 }).map
        (fun s => s.order_index))
      = (List.range l.length).map (fun i : ℕ => (i : ℤ) + 1) := by
  rw [List.mapIdx_eq_ofFn, List.map_ofFn, ← ofFn_add_one]
  rfl

/-- Claim C4 (amended): deleting a Step renumbers the survivors to the dense
1-based sequence 1..n unconditionally; an optimistic Subtask or Step insert
preserves density (a dense sibling set stays dense); but deleting a Subtask
performs no renumbering (see the counterexample), so only these cases keep
the invariant. -/
theorem order_index_dense_amended :
    (∀ (sel : ℤ) (steps : List Step),
        denseOrderIdx ((deleteStepLocal sel steps).map (fun s => s.order_index)))
    ∧ (∀ (tempId : ℤ) (title : String) (prev : List Subtask),
        denseOrderIdx (prev.map (fun st => st.order_index)) →
        denseOrderIdx ((addSubtaskOptimistic tempId title prev).map (fun st => st.order_index)))
    ∧ (∀ (tempId : ℤ) (st : PanelState),
        denseOrderIdx (st.steps.map (fun s => s.order_index)) →
        denseOrderIdx ((handleAddStepLocal tempId st).steps.map (fun s => s.order_index))) := by
  have hins : ∀ l : List ℤ,
      denseOrderIdx l → denseOrderIdx (l ++ [(l.length : ℤ) + 1]) := by
    intro l h
    unfold denseOrderIdx at h ⊢
    rw [List.length_append]
    simp only [List.length_singleton]
    rw [List.range_succ, List.map_append]
    exact congrArg (· ++ [((l.length : ℤ) + 1)]) h
  refine ⟨?_, ?_, ?_⟩
  · intro sel steps
    have hlen : ((deleteStepLocal sel steps).map (fun s => s.order_index)).length
        = (steps.filter fun s => s.id != sel).length := by
      simp [deleteStepLocal]
    unfold denseOrderIdx
    rw [hlen, deleteStepLocal, mapIdx_order_eq]
  · intro tempId title prev h
    have hmap : (addSubtaskOptimistic tempId title prev).map (fun st => st.order_index)
        = prev.map (fun st => st.order_index)
          ++ [((prev.map (fun st => st.order_index)).length : ℤ) + 1] := by
      simp [addSubtaskOptimistic]
    rw [hmap]
    exact hins _ h
  · intro tempId st h
    rw [handleAddStepLocal]
    split
    · exact h
    · have hmap : (st.steps ++ [mkOptimisticStep tempId st.stepName st.steps.length]).map
          (fun s => s.order_index)
          = st.steps.map (fun s => s.order_index)
            ++ [((st.steps.map (fun s => s.order_index)).length : ℤ) + 1] := by
        simp [mkOptimisticStep]
      show denseOrderIdx ((st.steps ++ [mkOptimisticStep tempId st.stepName st.steps.length]).map
        (fun s => s.order_index))
      rw [hmap]
      exact hins _ h

/-- Witness for the amended claim C4 at concrete inputs: the empty sibling
set is dense, and an optimistic subtask insert over it yields the dense
sequence [1]; a step delete on the fixture also renumbers densely. -/
theorem order_index_dense_amended_witness :
    denseOrderIdx (([] : List Subtask).map (fun st => st.order_index))
    ∧ denseOrderIdx ((addSubtaskOptimistic (-5) "x" []).map (fun st => st.order_index)) := by
  have h0 : denseOrderIdx (([] : List Subtask).map (fun st => st.order_index)) := by
    unfold denseOrderIdx
    decide
  exact ⟨h0, order_index_dense_amended.2.1 (-5) "x" [] h0⟩

/-! ## Optimistic create (claim C3) -/

/-- Claim C3: an optimistic Step create appends the entity immediately under
the temporary sentinel id and selects it; if the remote call succeeds,
exactly the entity bearing the temporary id is replaced by the backend's
authoritative entity; if it fails, the optimistic entity is retained
unchanged (no rollback) and a warning advisory is raised. -/
theorem optimistic_create_replace (st : PanelState) (tempId : ℤ) (created : Step)
    (hname : (trimS st.stepName).data.isEmpty = false)
    (hfresh : ∀ s ∈ st.steps, s.id ≠ tempId) :
    (handleAddStepLocal tempId st).steps
        = st.steps ++ [mkOptimisticStep tempId st.stepName st.steps.length]
    ∧ (mkOptimisticStep tempId st.stepName st.steps.length).id = tempId
    ∧ (handleAddStepLocal tempId st).selectedStepId = some tempId
    ∧ (addStepSuccess tempId created (handleAddStepLocal tempId st)).steps
        = st.steps ++ [created]
    ∧ (addStepFailure (handleAddStepLocal tempId st)).steps
        = st.steps ++ [mkOptimisticStep tempId st.stepName st.steps.length]
    ∧ (addStepFailure (handleAddStepLocal tempId st)).actionTone = Tone.warning
    ∧ (addStepFailure (handleAddStepLocal tempId st)).actionMessage
        = some "API шагов недоступно, шаг добавлен локально." := by
  have hrec : handleAddStepLocal tempId st
      = { st with
          steps := st.steps ++ [mkOptimisticStep tempId st.stepName st.steps.length]
          stepName := ""
          selectedStepId := some tempId } := by
    rw [handleAddStepLocal, if_neg (by simp [hname])]
  have hmapid : st.steps.map (fun s => if s.id = tempId then created else s) = st.steps := by
    calc st.steps.map (fun s => if s.id = tempId then created else s)
        = st.steps.map id := List.map_congr_left (fun s hs => by rw [if_neg (hfresh s hs)]; rfl)
      _ = st.steps := List.map_id _
  refine ⟨by rw [hrec], rfl, by rw [hrec], ?_, by rw [hrec]; rfl, rfl, rfl⟩
  rw [addStepSuccess, hrec]
  simp only [List.map_append, hmapid, List.map_cons, List.map_nil]
  have hid : (mkOptimisticStep tempId st.stepName st.steps.length).id = tempId := rfl
  rw [if_pos hid]

/-- Fixture panel state for the create witness. -/
def panelFixture : PanelState :=
  { steps := [], stepName := "A", selectedStepId := none, actionMessage := none
    actionTone := .info }

/-- Fixture backend-created step for the create witness. -/
def createdFixture : Step :=
  { id := 7, name := "A", description := some "", status := .todo, assignee_id := none
    start_date := none, target_date := none, completed_date := none, weight := some 1
    order_index := 1, comments := some "", subtasks := [], progress_percent := 0 }

/-- Witness for claim C3 at a concrete input: optimistic create over the
fixture state with temporary id −5, then a successful confirmation with the
backend entity of id 7. -/
theorem optimistic_create_replace_witness :
    (trimS panelFixture.stepName).data.isEmpty = false
    ∧ (∀ s ∈ panelFixture.steps, s.id ≠ (-5 : ℤ))
    ∧ (addStepSuccess (-5) createdFixture (handleAddStepLocal (-5) panelFixture)).steps
        = panelFixture.steps ++ [createdFixture] :=
  ⟨by decide, by simp [panelFixture],
    (optimistic_create_replace panelFixture (-5) createdFixture (by decide)
      (by simp [panelFixture])).2.2.2.1⟩

/-! ## Absent step weight and the weight predicate (claim C10) -/

/-- Claim C10: a Step whose `weight` field is absent is never excluded by
the weight predicate — the step filter behaves as if the parsed weight
comparison were not there at all, for every parsed token result. -/
theorem absent_weight_passes_filter (parsed : TokenResult) (st : Step)
    (h : st.weight = none) :
    stepMatches parsed st
      = stepMatches { parsed with weightComparator := none, weightValue := none } st := by
  simp only [stepMatches, h]
  cases parsed.weightValue <;> rfl

/-- Witness for claim C10 at a concrete input: seed step 1101 has no weight
field, and the parsed predicate `weight:>5` does not exclude it. -/
theorem absent_weight_passes_filter_witness :
    step1101.weight = none
    ∧ stepMatches (parseTokens "weight:>5") step1101
        = stepMatches
            { parseTokens "weight:>5" with weightComparator := none, weightValue := none }
            step1101 :=
  ⟨rfl, absent_weight_passes_filter (parseTokens "weight:>5") step1101 rfl⟩

/-! ## The weight query (claim C5) -/

/-- Fixture subtask matching all three predicates of the claim. -/
def ovenDoor : Subtask :=
  { id := 1, name := "Oven door", status := .in_progress, assignee_id := none
    target_date := none, completed_date := none, weight := 2, order_index := 1
    comment := none }

/-- Fixture subtask with weight exactly 0.5. -/
def ovenKnob : Subtask :=
  { id := 2, name := "Oven knob", status := .in_progress, assignee_id := none
    target_date := none, completed_date := none, weight := 1 / 2, order_index := 2
    comment := none }

/-- Claim C5 (counterexample): under the claim's literal query
`oven status:in_progress weight>0.5` (no colon after `weight`), the token
pattern `(\w+):(\S+)` never matches `weight>0.5`, so it stays inside the
plain-text term (`"oven weight>0.5"`); the fixture subtask "Oven door"
(status in_progress, weight 2) satisfies all three claimed predicates yet
is not returned. -/
theorem weight_query_counterexample :
    filteredSubtasks "oven status:in_progress weight>0.5" none [ovenDoor] = []
    ∧ (parseTokens "oven status:in_progress weight>0.5").text = "oven weight>0.5"
    ∧ (parseTokens "oven status:in_progress weight>0.5").weightValue = none
    ∧ containsS (toLowerS ovenDoor.name) "oven" = true
    ∧ ovenDoor.status = .in_progress
    ∧ (1 : ℚ) / 2 < ovenDoor.weight := by
  refine ⟨by decide, by decide, by decide, by decide, rfl, by norm_num [ovenDoor]⟩

lemma parseDecimal_half : parseDecimal ['0', '.', '5'] = some (1 / 2) := by
  have h1 : (['0', '.', '5'].count '.') = 1 := by decide
  have h2 : ¬(['0', '.', '5'] = ['.']) := by decide
  have h3 : ['0', '.', '5'].takeWhile (fun c => c ≠ '.') = ['0'] := by decide
  have h4 : (['0', '.', '5'].dropWhile (fun c => c ≠ '.')).drop 1 = ['5'] := by decide
  rw [parseDecimal, if_neg (by rw [h1]; norm_num), if_neg h2, h3, h4]
  show some ((natOfDigits ['0'] : ℚ)
      + (natOfDigits ['5'] : ℚ) / (10 : ℚ) ^ (['5'] : List Char).length) = some (1 / 2)
  have h5 : natOfDigits ['0'] = 0 := rfl
  have h6 : natOfDigits ['5'] = 5 := rfl
  rw [h5, h6]
  norm_num

lemma weight_query_parsed :
    (parseTokens "oven status:in_progress weight:>0.5").text = "oven"
    ∧ (parseTokens "oven status:in_progress weight:>0.5").status = some "in_progress"
    ∧ (parseTokens "oven status:in_progress weight:>0.5").weightComparator
        = some WeightCmp.gt
    ∧ (parseTokens "oven status:in_progress weight:>0.5").weightValue = some (1 / 2) := by
  refine ⟨by decide, by decide, by decide, ?_⟩
  have h0 : (parseTokens "oven status:in_progress weight:>0.5").weightValue
      = parseDecimal ['0', '.', '5'] := rfl
  rw [h0, parseDecimal_half]

/-- Claim C5 (amended): with the grammar's colon syntax,
`oven status:in_progress weight:>0.5`, the subtask filter returns exactly
the items whose name contains "oven" case-insensitively, whose status is
in_progress, and whose weight is strictly greater than 0.5; the fixture
with weight exactly 0.5 is excluded. -/
theorem weight_query_amended :
    (∀ l : List Subtask,
        filteredSubtasks "oven status:in_progress weight:>0.5" none l
          = l.filter (fun st =>
              containsS (toLowerS st.name) "oven"
                && (st.status == Status.in_progress)
                && decide ((1 : ℚ) / 2 < st.weight)))
    ∧ filteredSubtasks "oven status:in_progress weight:>0.5" none [ovenKnob] = [] := by
  have hmain : ∀ l : List Subtask,
      filteredSubtasks "oven status:in_progress weight:>0.5" none l
        = l.filter (fun st =>
            containsS (toLowerS st.name) "oven"
              && (st.status == Status.in_progress)
              && decide ((1 : ℚ) / 2 < st.weight)) := by
    intro l
    rw [filteredSubtasks]
    apply List.filter_congr
    intro st _
    obtain ⟨ht, hs, hc, hw⟩ := weight_query_parsed
    simp only [subtaskMatches, ht, hs, hc, hw]
    rw [if_neg (by norm_num : ¬((1 : ℚ) / 2 = 0))]
    have h5 : (("oven" : String).data.isEmpty) = false := by decide
    have h6 : toLowerS "oven" = "oven" := by decide
    cases st.status <;>
      simp [h5, h6, statusStr, toLowerS, Bool.and_assoc]
  refine ⟨hmain, ?_⟩
  rw [hmain [ovenKnob]]
  have : ¬((1 : ℚ) / 2 < (1 : ℚ) / 2) := lt_irrefl _
  simp [ovenKnob, this]

/-! ## The aggregation formula (claim C1) -/

lemma specCredit_nonneg {coeff : ℚ} (h0 : 0 ≤ coeff) (s : Status) :
    0 ≤ specCredit coeff s := by
  cases s with
  | todo => norm_num [specCredit]
  | in_progress => simpa [specCredit] using h0
  | blocked => norm_num [specCredit]
  | done => norm_num [specCredit]

lemma specCredit_le_one {coeff : ℚ} (h1 : coeff ≤ 1) (s : Status) :
    specCredit coeff s ≤ 1 := by
  cases s with
  | todo => norm_num [specCredit]
  | in_progress => simpa [specCredit] using h1
  | blocked => norm_num [specCredit]
  | done => norm_num [specCredit]

/-- Claim C1: over items with positive weights (absent weights defaulting
to 1) and a coefficient in [0,1], the computed progress of an empty
collection is 0, a nonempty collection's progress is exactly
round-half-up of `100·Σ(wᵢcᵢ)/Σwᵢ` with the per-status credits, and the
result always lies in [0,100]. -/
theorem progress_aggregation (coeff : ℚ) (items : List (Option ℚ × Status))
    (h0 : 0 ≤ coeff) (h1 : coeff ≤ 1)
    (hw : ∀ it ∈ items, ∀ q : ℚ, it.1 = some q → 0 < q) :
    specProgress coeff ([] : List (Option ℚ × Status)) = 0
    ∧ (items ≠ [] →
        specProgress coeff items
          = jsRound (100 * (items.map (fun it => it.1.getD 1 * specCredit coeff it.2)).sum
              / (items.map (fun it => it.1.getD 1)).sum))
    ∧ 0 ≤ specProgress coeff items
    ∧ specProgress coeff items ≤ 100 := by
  have hweq : ∀ it ∈ items, specWeight it.1 = it.1.getD 1 := by
    intro it hit
    cases hv : it.1 with
    | none => rfl
    | some q =>
      have hq := hw it hit q hv
      simp [specWeight, Option.getD, ne_of_gt hq]
  have hwpos : ∀ it ∈ items, 0 < specWeight it.1 := by
    intro it hit
    cases hv : it.1 with
    | none => norm_num [specWeight]
    | some q =>
      have hq := hw it hit q hv
      simp only [specWeight, if_neg (ne_of_gt hq)]
      exact hq
  refine ⟨rfl, ?_, ?_⟩
  · intro hne
    rw [specProgress, if_neg hne]
    have e1 : items.map (fun it => specWeight it.1 * specCredit coeff it.2)
        = items.map (fun it => it.1.getD 1 * specCredit coeff it.2) :=
      List.map_congr_left (fun it hit => by rw [hweq it hit])
    have e2 : items.map (fun it => specWeight it.1) = items.map (fun it => it.1.getD 1) :=
      List.map_congr_left (fun it hit => hweq it hit)
    rw [e1, e2]
  · by_cases hne : items = []
    · subst hne
      exact ⟨le_refl 0, by norm_num [specProgress]⟩
    · rw [specProgress, if_neg hne]
      have hS : 0 < (items.map (fun it => specWeight it.1)).sum := by
        apply List.sum_pos
        · intro x hx
          obtain ⟨it, hit, hx⟩ := List.mem_map.mp hx
          rw [← hx]
          exact hwpos it hit
        · simpa using hne
      have hN0 : 0 ≤ (items.map (fun it => specWeight it.1 * specCredit coeff it.2)).sum := by
        apply List.sum_nonneg
        intro x hx
        obtain ⟨it, hit, hx⟩ := List.mem_map.mp hx
        rw [← hx]
        exact mul_nonneg (le_of_lt (hwpos it hit)) (specCredit_nonneg h0 it.2)
      have hNS : (items.map (fun it => specWeight it.1 * specCredit coeff it.2)).sum
          ≤ (items.map (fun it => specWeight it.1)).sum := by
        apply List.sum_le_sum
        intro it hit
        exact mul_le_of_le_one_right (le_of_lt (hwpos it hit)) (specCredit_le_one h1 it.2)
      have hq0 : 0 ≤ 100 * (items.map (fun it => specWeight it.1 * specCredit coeff it.2)).sum
          / (items.map (fun it => specWeight it.1)).sum :=
        div_nonneg (by linarith) (le_of_lt hS)
      have hq1 : 100 * (items.map (fun it => specWeight it.1 * specCredit coeff it.2)).sum
          / (items.map (fun it => specWeight it.1)).sum ≤ 100 := by
        rw [div_le_iff₀ hS]
        linarith
      exact ⟨jsRound_nonneg hq0, jsRound_le_100 hq1⟩

/-- Witness for claim C1 at a concrete input: two items of weight 1, one
Done and one InProgress, coefficient 0.5. -/
theorem progress_aggregation_witness :
    (0 : ℚ) ≤ 1 / 2 ∧ (1 / 2 : ℚ) ≤ 1
    ∧ (∀ it ∈ [((some 1 : Option ℚ), Status.done), (some 1, Status.in_progress)],
        ∀ q : ℚ, it.1 = some q → 0 < q)
    ∧ 0 ≤ specProgress (1 / 2) [(some 1, Status.done), (some 1, Status.in_progress)]
    ∧ specProgress (1 / 2) [(some 1, Status.done), (some 1, Status.in_progress)] ≤ 100 := by
  have hw : ∀ it ∈ [((some 1 : Option ℚ), Status.done), (some 1, Status.in_progress)],
      ∀ q : ℚ, it.1 = some q → 0 < q := by
    intro it hit q hq
    rcases List.mem_cons.mp hit with h | h
    · subst h
      simp only [Option.some.injEq] at hq
      rw [← hq]
      norm_num
    · rcases List.mem_cons.mp h with h2 | h2
      · subst h2
        simp only [Option.some.injEq] at hq
        rw [← hq]
        norm_num
      · simp at h2
  have h := progress_aggregation (1 / 2)
    [(some 1, Status.done), (some 1, Status.in_progress)] (by norm_num) (by norm_num) hw
  exact ⟨by norm_num, by norm_num, hw, h.2.2.1, h.2.2.2⟩

end PT
